import Mathlib

/-!
Verification development for the PureTrace library (TypeScript sources
src/pure_message.ts, src/pure_result.ts, src/pure_result_async.ts).

The embedding is shallow: runtime JavaScript values that may be supplied as
trace or error messages are modelled by a JSON value type, the zod
messageSchema validation is modelled as an executable predicate over that
type, and the Success / Failure classes are modelled as a two-constructor
inductive carrying the value, the error list and the trace list.  The
asynchronous layer is modelled by explicit state passing: a computation is a
function from a world state to a new state together with either a produced
Result or a thrown JavaScript value (covering both synchronous throws and
rejected awaitables).
-/

namespace PureTrace

/-- Model of a runtime JSON-like JavaScript value.  Candidates handed to
addTraces and addErrors are arbitrary runtime values; this type is the slice
of such values used by the embedding. -/
inductive Json where
  | null
  | bool (b : Bool)
  | num (n : Int)
  | str (s : String)
  | arr (elems : List Json)
  | obj (fields : List (String × Json))

/-- First-match lookup of a key in the field list of a JSON object, modelling
JavaScript property access. -/
def lookupField : List (String × Json) → String → Option Json
  | [], _ => none
  | (k, v) :: rest, key => if k = key then some v else lookupField rest key

/-- Field access on a JSON value: some value when the value is an object
holding the key, none otherwise. -/
def jsonField : Json → String → Option Json
  | Json.obj fs, key => lookupField fs key
  | _, _ => none

/-- Check for the locale pattern of localeSchema in pure_message.ts, the
regular expression of two lowercase letters optionally followed by a dash and
two uppercase letters. -/
def localeOk (s : String) : Bool :=
  match s.toList with
  | [a, b] => a.isLower && b.isLower
  | [a, b, h, c, d] => a.isLower && b.isLower && h = '-' && c.isUpper && d.isUpper
  | _ => false

/-- Validation issues of a candidate against localizedMessageSchema: an object
with an optional locale matching localeSchema and a mandatory nonempty
message string. -/
def localizedMessageIssues : Json → List String
  | Json.obj fs =>
    (match lookupField fs "locale" with
     | none => []
     | some (Json.str s) => if localeOk s then [] else ["invalidLocale"]
     | some _ => ["invalidLocale"]) ++
    (match lookupField fs "message" with
     | some (Json.str s) => if s.length ≥ 1 then [] else ["emptyLocalizedMessageText"]
     | _ => ["invalidLocalizedMessageText"])
  | _ => ["localizedMessageNotAnObject"]

/-- Validation issues of a candidate against messageSchema of
pure_message.ts: an object with string fields kind, type and code, an
optional JSON data field, an optional nonempty issuer string and an optional
localized message.  Unknown keys are stripped by zod, never rejected, so they
raise no issue. -/
def messageIssues : Json → List String
  | Json.obj fs =>
    (match lookupField fs "kind" with
     | some (Json.str _) => []
     | _ => ["invalidKind"]) ++
    (match lookupField fs "type" with
     | some (Json.str _) => []
     | _ => ["invalidType"]) ++
    (match lookupField fs "code" with
     | some (Json.str _) => []
     | _ => ["invalidCode"]) ++
    (match lookupField fs "issuer" with
     | none => []
     | some (Json.str s) => if s.length ≥ 1 then [] else ["emptyIssuer"]
     | some _ => ["invalidIssuer"]) ++
    (match lookupField fs "localizedMessage" with
     | none => []
     | some lm => localizedMessageIssues lm)
  | _ => ["notAnObject"]

/-- Success flag of messageSchema.safeParse on a candidate. -/
def messageValid (c : Json) : Bool :=
  (messageIssues c).isEmpty

/-- Model of the structured diagnostic z.treeifyError produces from a failed
safeParse: the external zod collaborator is abstracted as the list of issue
labels of the failed validation. -/
def zodErrorTree (c : Json) : Json :=
  Json.obj [("errors", Json.arr ((messageIssues c).map Json.str))]

/-- Model of a localized message object handed to generateError. -/
structure LocalizedMessage where
  locale : Option String
  message : String

/-- Render a localized message parameter to its runtime JSON object. -/
def LocalizedMessage.toJson (lm : LocalizedMessage) : Json :=
  Json.obj ((match lm.locale with
             | some l => [("locale", Json.str l)]
             | none => []) ++ [("message", Json.str lm.message)])

/-- Parameters of generateError in pure_message.ts (PureErrorParameters). -/
structure PureErrorParameters where
  type : String
  code : String
  data : Option Json
  issuer : Option String
  localizedMessage : Option LocalizedMessage

/-- generateError of pure_message.ts: spreads the parameters after a fixed
kind error field; absent optional parameters produce no key. -/
def generateError (p : PureErrorParameters) : Json :=
  Json.obj ([("kind", Json.str "error"), ("type", Json.str p.type),
             ("code", Json.str p.code)] ++
            (match p.data with
             | some d => [("data", d)]
             | none => []) ++
            (match p.issuer with
             | some i => [("issuer", Json.str i)]
             | none => []) ++
            (match p.localizedMessage with
             | some lm => [("localizedMessage", lm.toJson)]
             | none => []))

/-- Substitute built by addTraces in pure_result.ts for a candidate failing
validation: generateError with type pureTraceInternalError, code
invalidTraceMessage, and data embedding the original candidate and the zod
diagnostic. -/
def invalidTraceSubstitute (c : Json) : Json :=
  generateError ⟨"pureTraceInternalError", "invalidTraceMessage",
    some (Json.obj [("pureMessage", c), ("zodError", zodErrorTree c)]),
    none, none⟩

/-- Substitute built by addErrors in pure_result.ts for a candidate failing
validation: generateError with type pureTraceInternalError, code
invalidError, and data embedding the original candidate and the zod
diagnostic. -/
def invalidErrorSubstitute (c : Json) : Json :=
  generateError ⟨"pureTraceInternalError", "invalidError",
    some (Json.obj [("pureMessage", c), ("zodError", zodErrorTree c)]),
    none, none⟩

/-- Per-candidate step of the addTraces loop: a valid candidate is pushed
unchanged, an invalid one is replaced by its substitute. -/
def validateTrace (c : Json) : Json :=
  if messageValid c then c else invalidTraceSubstitute c

/-- Per-candidate step of the addErrors loop: a valid candidate is pushed
unchanged, an invalid one is replaced by its substitute. -/
def validateError (c : Json) : Json :=
  if messageValid c then c else invalidErrorSubstitute c

/-- All candidates of a list pass messageSchema validation. -/
def validList (ts : List Json) : Bool :=
  ts.all messageValid

/-- Model of the Result sum type of pure_result.ts: a Success carries its
value and its ordered trace list; a Failure carries its ordered error list
and its own ordered trace list.  The trace list lives in the shared
PureResult base class in the source; here it is a component of each
constructor. -/
inductive Result (S : Type) where
  | success (value : S) (traces : List Json)
  | failure (errors : List Json) (traces : List Json)

namespace Result

/-- getTraces of PureResult: the trace list (structuredClone is the identity
in the pure model). -/
def getTraces : Result S → List Json
  | success _ ts => ts
  | failure _ ts => ts

/-- getErrors of Failure: the error list.  The source defines it on Failure
only; on a Success the model returns the empty list for totality. -/
def getErrors : Result S → List Json
  | success _ _ => []
  | failure es _ => es

/-- isSuccess discriminator. -/
def isSuccess : Result S → Bool
  | success _ _ => true
  | failure _ _ => false

/-- isFailure discriminator. -/
def isFailure : Result S → Bool
  | success _ _ => false
  | failure _ _ => true

/-- addTraces of PureResult: validate each candidate, substituting the
internal error for invalid ones, and append all of them in order to the own
trace list of the same instance. -/
def addTraces : Result S → List Json → Result S
  | success v ts, ms => success v (ts ++ ms.map validateTrace)
  | failure es ts, ms => failure es (ts ++ ms.map validateTrace)

/-- addErrors of Failure: validate each candidate, substituting the internal
error for invalid ones, and append all of them in order to the error list.
The source defines it on Failure only; a Success is returned unchanged for
totality. -/
def addErrors : Result S → List Json → Result S
  | failure es ts, ms => failure (es ++ ms.map validateError) ts
  | success v ts, _ => success v ts

/-- The Success constructor: an optional initial trace message goes through
addTraces. -/
def mkSuccess (v : S) (trace : Option Json) : Result S :=
  match trace with
  | none => success v []
  | some t => (success v ([] : List Json)).addTraces [t]

/-- The Failure constructor: the variadic error arguments go through
addErrors; the base constructor receives no trace. -/
def mkFailure (errs : List Json) : Result S :=
  (failure ([] : List Json) ([] : List Json)).addErrors errs

/-- mapSuccess: on a Success, apply the callback (returning a Success
modelled as a value and an intrinsic trace list) and append the current
trace list onto it; a Failure is returned unchanged and the callback is
never invoked. -/
def mapSuccess (f : S → S2 × List Json) : Result S → Result S2
  | success v ts => (success (f v).1 (f v).2).addTraces ts
  | failure es ts => failure es ts

/-- mapFailure: on a Failure, apply the callback to a copy of the error list
(the callback returns a Failure modelled as an error list and an intrinsic
trace list) and append the current trace list onto it; a Success is returned
unchanged. -/
def mapFailure (f : List Json → List Json × List Json) : Result S → Result S
  | success v ts => success v ts
  | failure es ts => (failure (f es).1 (f es).2).addTraces ts

/-- mapBoth: dispatch to mapSuccess on Success and mapFailure on Failure, as
each variant of the source does. -/
def mapBoth (onS : S → S2 × List Json) (onF : List Json → List Json × List Json) :
    Result S → Result S2
  | success v ts => mapSuccess onS (success v ts)
  | failure es ts => (failure (onF es).1 (onF es).2).addTraces ts

/-- chainSuccess: on a Success, apply the callback (returning a full Result)
and append the current trace list onto whatever it returns; a Failure is
returned unchanged. -/
def chainSuccess (f : S → Result S2) : Result S → Result S2
  | success v ts => (f v).addTraces ts
  | failure es ts => failure es ts

/-- Value coercion used to embed the TypeScript union type of chainFailure
and chainBoth results. -/
def mapValue (g : A → B) : Result A → Result B
  | success v ts => success (g v) ts
  | failure es ts => failure es ts

/-- chainFailure: on a Failure, apply the callback to a copy of the error
list and append the current trace list onto whatever Result it returns; a
Success is returned unchanged.  The source result type is the union of both
value types, embedded here as a sum. -/
def chainFailure (f : List Json → Result S2) : Result S → Result (S ⊕ S2)
  | success v ts => success (Sum.inl v) ts
  | failure es ts => mapValue Sum.inr ((f es).addTraces ts)

/-- chainBoth: dispatch to the success continuation on Success and to the
failure continuation on Failure, appending the current trace list onto the
returned Result in both cases. -/
def chainBoth (onS : S → Result S2) (onF : List Json → Result S3) :
    Result S → Result (S2 ⊕ S3)
  | success v ts => mapValue Sum.inl ((onS v).addTraces ts)
  | failure es ts => mapValue Sum.inr ((onF es).addTraces ts)

/-- chain of PureResult: apply the callback to the whole Result and append
the current trace list onto whatever it returns. -/
def chain (f : Result S → Result S2) (r : Result S) : Result S2 :=
  (f r).addTraces r.getTraces

/-- tap: fire the side-effecting callback and return the same instance; the
callback is pure in the model. -/
def tap (f : Result S → Unit) (r : Result S) : Result S :=
  let _ := f r
  r

/-- tapSuccess: fire the callback on a Success only; the instance is returned
unchanged either way. -/
def tapSuccess (f : S × List Json → Unit) : Result S → Result S
  | success v ts => let _ := f (v, ts); success v ts
  | failure es ts => failure es ts

/-- tapFailure: fire the callback on a Failure only; the instance is returned
unchanged either way. -/
def tapFailure (f : List Json × List Json → Unit) : Result S → Result S
  | success v ts => success v ts
  | failure es ts => let _ := f (es, ts); failure es ts

/-- tapBoth: fire exactly the callback matching the variant; the instance is
returned unchanged. -/
def tapBoth (onS : S × List Json → Unit) (onF : List Json × List Json → Unit) :
    Result S → Result S
  | success v ts => let _ := onS (v, ts); success v ts
  | failure es ts => let _ := onF (es, ts); failure es ts

/-- convertFailureToSuccess: on a Failure, a fresh Success of the default
value receives the error list followed by the trace list through addTraces;
a Success is returned unchanged. -/
def convertFailureToSuccess (d : S) : Result S → Result S
  | success v ts => success v ts
  | failure es ts => (success d ([] : List Json)).addTraces (es ++ ts)

end Result

/-- generateFailure of pure_result.ts: a Failure built from one generated
error. -/
def generateFailure (p : PureErrorParameters) : Result S :=
  Result.mkFailure [generateError p]

namespace GetResult

/-- Loop of GetResult.fromResultArray.  The accumulators mirror the local
variables of the source: the collected success values, the running trace
buffer, and the merged Failure once one was met (its error list and its
trace list, which the source mutates in place).  Each iteration first
appends the traces of the current Result to the buffer; on the first
Failure the whole buffer (including the traces of that very Failure) goes
through addTraces onto it, and with firstFailureOnly the scan stops there;
a later Failure contributes its errors through addErrors and the whole
current buffer again through addTraces. -/
def fromResultArrayGo (ffo : Bool) :
    List (Result S) → List S → List Json → Option (List Json × List Json) →
    Result (List S)
  | [], succ, buf, none => (Result.success succ ([] : List Json)).addTraces buf
  | [], _, _, some (fe, ft) => Result.failure fe ft
  | r :: rest, succ, buf, fl =>
    let buf' := buf ++ r.getTraces
    match r, fl with
    | Result.failure es ts, none =>
      let merged := (es, ts ++ buf'.map validateTrace)
      if ffo then Result.failure merged.1 merged.2
      else fromResultArrayGo ffo rest succ buf' (some merged)
    | Result.failure es _, some (fe, ft) =>
      fromResultArrayGo ffo rest succ buf'
        (some (fe ++ es.map validateError, ft ++ buf'.map validateTrace))
    | Result.success v _, fl => fromResultArrayGo ffo rest (succ ++ [v]) buf' fl

/-- GetResult.fromResultArray of pure_result.ts. -/
def fromResultArray (results : List (Result S)) (firstFailureOnly : Bool) :
    Result (List S) :=
  fromResultArrayGo firstFailureOnly results [] [] none

/-- Loop of GetResult.fromResultArrayAsSuccess: the traces of every Result
are buffered in order, the errors of every Failure are pushed into the same
buffer right after its traces, and success values are collected in order. -/
def fromResultArrayAsSuccessGo :
    List (Result S) → List S → List Json → Result (List S)
  | [], succ, buf => (Result.success succ ([] : List Json)).addTraces buf
  | r :: rest, succ, buf =>
    let buf' := buf ++ r.getTraces
    match r with
    | Result.failure es _ => fromResultArrayAsSuccessGo rest succ (buf' ++ es)
    | Result.success v _ => fromResultArrayAsSuccessGo rest (succ ++ [v]) buf'

/-- GetResult.fromResultArrayAsSuccess of pure_result.ts. -/
def fromResultArrayAsSuccess (results : List (Result S)) : Result (List S) :=
  fromResultArrayAsSuccessGo results [] []

end GetResult

/-- Model of a JavaScript value that may be thrown or used as a rejection
reason.  JSON.stringify succeeds on the JSON slice and throws a TypeError on
a BigInt value, as the host runtime does. -/
inductive JsValue where
  | json (j : Json)
  | bigintVal (n : Int)

/-- Escape of one character inside a JSON string literal, as JSON.stringify
performs it. -/
def escapeJsonChar (c : Char) : String :=
  if c = '"' then "\\\""
  else if c = '\\' then "\\\\"
  else if c = '\n' then "\\n"
  else if c = '\r' then "\\r"
  else if c = '\t' then "\\t"
  else String.singleton c

/-- A JSON string literal with its surrounding quotes. -/
def quoteJsonString (s : String) : String :=
  "\"" ++ String.join (s.toList.map escapeJsonChar) ++ "\""

mutual

/-- Serialization of a JSON value, modelling JSON.stringify on the JSON
slice. -/
def jsonSerialize : Json → String
  | Json.null => "null"
  | Json.bool true => "true"
  | Json.bool false => "false"
  | Json.num n => toString n
  | Json.str s => quoteJsonString s
  | Json.arr xs => "[" ++ jsonSerializeArr xs ++ "]"
  | Json.obj fs => "\x7b" ++ jsonSerializeObj fs ++ "\x7d"

/-- Comma-separated serialization of array elements. -/
def jsonSerializeArr : List Json → String
  | [] => ""
  | [x] => jsonSerialize x
  | x :: xs => jsonSerialize x ++ "," ++ jsonSerializeArr xs

/-- Comma-separated serialization of object fields. -/
def jsonSerializeObj : List (String × Json) → String
  | [] => ""
  | [(k, v)] => quoteJsonString k ++ ":" ++ jsonSerialize v
  | (k, v) :: fs => quoteJsonString k ++ ":" ++ jsonSerialize v ++ "," ++ jsonSerializeObj fs

end

/-- JSON.stringify on a throwable value: some serialized string on the JSON
slice, none (meaning JSON.stringify itself throws a TypeError) on a BigInt
value. -/
def jsStringify : JsValue → Option String
  | JsValue.json j => some (jsonSerialize j)
  | JsValue.bigintVal _ => none

/-- The TypeError JSON.stringify throws when asked to serialize a BigInt,
escaping the catch block of resolve as a rejection. -/
def stringifyTypeError : JsValue :=
  JsValue.json (Json.str "TypeError: Do not know how to serialize a BigInt")

/-- Model of ResultAsync of pure_result_async.ts.  The only state of the
class is the captured computation; a computation receives the world state
and produces a new state together with either an Outcome or a thrown or
rejecting value. -/
structure ResultAsync (σ : Type) (S : Type) where
  compute : σ → σ × Except JsValue (Result S)

namespace ResultAsync

/-- resolve: run the captured computation; a produced Result passes through
unchanged, a thrown or rejecting value is stringified into a Failure of type
technicalIssue and code uncaughtException whose data carries the stringified
reason; when JSON.stringify itself throws (BigInt reason) that TypeError
escapes the catch block and the returned promise rejects. -/
def resolve (a : ResultAsync σ S) (s : σ) : σ × Except JsValue (Result S) :=
  match a.compute s with
  | (s', Except.ok r) => (s', Except.ok r)
  | (s', Except.error e) =>
    match jsStringify e with
    | some msg =>
      (s', Except.ok (generateFailure ⟨"technicalIssue", "uncaughtException",
        some (Json.obj [("message", Json.str msg)]), none, none⟩))
    | none => (s', Except.error stringifyTypeError)

/-- then of ResultAsyncImpl: delegates to resolve; the fulfillment and
rejection continuations are applied by the host on the returned promise. -/
def thenRun (a : ResultAsync σ S) (s : σ) : σ × Except JsValue (Result S) :=
  a.resolve s

/-- tap combinator: a fresh computation that resolves the upstream again and
passes the Result through the synchronous tap. -/
def tap (a : ResultAsync σ S) (f : Result S → Unit) : ResultAsync σ S :=
  ⟨fun s =>
    match a.resolve s with
    | (s', Except.ok r) => (s', Except.ok (Result.tap f r))
    | (s', Except.error e) => (s', Except.error e)⟩

/-- tapSuccess combinator. -/
def tapSuccess (a : ResultAsync σ S) (f : S × List Json → Unit) : ResultAsync σ S :=
  ⟨fun s =>
    match a.resolve s with
    | (s', Except.ok r) => (s', Except.ok (Result.tapSuccess f r))
    | (s', Except.error e) => (s', Except.error e)⟩

/-- tapFailure combinator. -/
def tapFailure (a : ResultAsync σ S) (f : List Json × List Json → Unit) :
    ResultAsync σ S :=
  ⟨fun s =>
    match a.resolve s with
    | (s', Except.ok r) => (s', Except.ok (Result.tapFailure f r))
    | (s', Except.error e) => (s', Except.error e)⟩

/-- tapBoth combinator. -/
def tapBoth (a : ResultAsync σ S) (onS : S × List Json → Unit)
    (onF : List Json × List Json → Unit) : ResultAsync σ S :=
  ⟨fun s =>
    match a.resolve s with
    | (s', Except.ok r) => (s', Except.ok (Result.tapBoth onS onF r))
    | (s', Except.error e) => (s', Except.error e)⟩

/-- mapSuccess combinator: a fresh computation that resolves the upstream
again and lifts the synchronous mapSuccess of the Result. -/
def mapSuccess (a : ResultAsync σ S) (f : S → S2 × List Json) : ResultAsync σ S2 :=
  ⟨fun s =>
    match a.resolve s with
    | (s', Except.ok r) => (s', Except.ok (Result.mapSuccess f r))
    | (s', Except.error e) => (s', Except.error e)⟩

/-- mapFailure combinator: the synchronous mapFailure is applied on a
Failure, a Success passes through liftResult. -/
def mapFailure (a : ResultAsync σ S) (f : List Json → List Json × List Json) :
    ResultAsync σ S :=
  ⟨fun s =>
    match a.resolve s with
    | (s', Except.ok r) =>
      (s', Except.ok (if r.isFailure then Result.mapFailure f r else r))
    | (s', Except.error e) => (s', Except.error e)⟩

/-- mapBoth combinator. -/
def mapBoth (a : ResultAsync σ S) (onS : S → S2 × List Json)
    (onF : List Json → List Json × List Json) : ResultAsync σ S2 :=
  ⟨fun s =>
    match a.resolve s with
    | (s', Except.ok r) => (s', Except.ok (Result.mapBoth onS onF r))
    | (s', Except.error e) => (s', Except.error e)⟩

/-- chain combinator: the continuation receives the whole Result and its
awaitable is followed through fromResultPromise. -/
def chain (a : ResultAsync σ S)
    (next : Result S → σ → σ × Except JsValue (Result S2)) : ResultAsync σ S2 :=
  ⟨fun s =>
    match a.resolve s with
    | (s', Except.ok r) => next r s'
    | (s', Except.error e) => (s', Except.error e)⟩

/-- chainSuccess combinator: on a Success the continuation receives the
value; on a Failure it passes through liftResult. -/
def chainSuccess (a : ResultAsync σ S)
    (next : S → σ → σ × Except JsValue (Result S2)) : ResultAsync σ S2 :=
  ⟨fun s =>
    match a.resolve s with
    | (s', Except.ok (Result.success v _)) => next v s'
    | (s', Except.ok (Result.failure es ts)) => (s', Except.ok (Result.failure es ts))
    | (s', Except.error e) => (s', Except.error e)⟩

/-- chainFailure combinator: on a Failure the continuation receives a copy of
the error list; on a Success it passes through liftResult.  The union result
type of the source is embedded as a sum. -/
def chainFailure (a : ResultAsync σ S)
    (next : List Json → σ → σ × Except JsValue (Result S2)) :
    ResultAsync σ (S ⊕ S2) :=
  ⟨fun s =>
    match a.resolve s with
    | (s', Except.ok (Result.success v ts)) => (s', Except.ok (Result.success (Sum.inl v) ts))
    | (s', Except.ok (Result.failure es _)) =>
      match next es s' with
      | (s'', Except.ok r) => (s'', Except.ok (Result.mapValue Sum.inr r))
      | (s'', Except.error e) => (s'', Except.error e)
    | (s', Except.error e) => (s', Except.error e)⟩

/-- chainBoth combinator. -/
def chainBoth (a : ResultAsync σ S)
    (nextS : S → σ → σ × Except JsValue (Result S2))
    (nextF : List Json → σ → σ × Except JsValue (Result S3)) :
    ResultAsync σ (S2 ⊕ S3) :=
  ⟨fun s =>
    match a.resolve s with
    | (s', Except.ok (Result.success v _)) =>
      match nextS v s' with
      | (s'', Except.ok r) => (s'', Except.ok (Result.mapValue Sum.inl r))
      | (s'', Except.error e) => (s'', Except.error e)
    | (s', Except.ok (Result.failure es _)) =>
      match nextF es s' with
      | (s'', Except.ok r) => (s'', Except.ok (Result.mapValue Sum.inr r))
      | (s'', Except.error e) => (s'', Except.error e)
    | (s', Except.error e) => (s', Except.error e)⟩

/-- liftSuccess of the factory: a computation producing a fresh Success of
the value without touching the state. -/
def liftSuccess (v : S) : ResultAsync σ S :=
  ⟨fun s => (s, Except.ok (Result.success v []))⟩

/-- liftResult of the factory: a computation producing the given Result
without touching the state. -/
def liftResult (r : Result S) : ResultAsync σ S :=
  ⟨fun s => (s, Except.ok r)⟩

/-- fromPromise of the factory: a fulfilled awaitable becomes a Success of
its value, a rejection reason is handed to the failure builder. -/
def fromPromise (p : σ → σ × Except JsValue S) (onFail : JsValue → Result S) :
    ResultAsync σ S :=
  ⟨fun s =>
    match p s with
    | (s', Except.ok v) => (s', Except.ok (Result.success v []))
    | (s', Except.error reason) => (s', Except.ok (onFail reason))⟩

end ResultAsync

/-!
Reference model.  The value-level Result model above cannot express object
identity, so the ownership contract of getTraces / addTraces /
fromResultArray is checked against a small heap model: outcomes live in a
store and are designated by references (indices); addTraces mutates the
store cell of its receiver in place, exactly as the source method mutates
its own trace array.  Success values are not tracked, only the variant flag
and the two message lists, which is all the ownership claim speaks about.
-/

/-- A stored outcome object: its variant flag, its error list and its trace
list. -/
structure OutcomeObj where
  isFail : Bool
  errors : List Json
  traces : List Json

/-- The object a reference designates; a dangling reference reads as an
empty Success, which never arises in the theorems below. -/
def storeGet (st : List OutcomeObj) (r : Nat) : OutcomeObj :=
  (st.get? r).getD ⟨false, [], []⟩

/-- Variant flag of the object a reference designates. -/
def storeIsFail (st : List OutcomeObj) (r : Nat) : Bool :=
  (storeGet st r).isFail

/-- getTraces through a reference. -/
def storeGetTraces (st : List OutcomeObj) (r : Nat) : List Json :=
  (storeGet st r).traces

/-- addTraces through a reference: the designated object itself is mutated,
its trace list growing by the validated candidates. -/
def storeAddTraces (st : List OutcomeObj) (r : Nat) (ms : List Json) :
    List OutcomeObj :=
  match st.get? r with
  | none => st
  | some o => st.set r ⟨o.isFail, o.errors, o.traces ++ ms.map validateTrace⟩

/-- Loop of fromResultArray in the heap model, for the default
firstFailureOnly mode: traces of every scanned outcome are buffered; the
first Failure is returned as the very same reference that was scanned, after
its own object received the buffer through addTraces; with no Failure a
fresh Success object carrying the buffer is appended to the store. -/
def storeFromResultArrayGo (st : List OutcomeObj) :
    List Nat → List Json → List OutcomeObj × Nat
  | [], buf => (st ++ [⟨false, [], ([] : List Json) ++ buf.map validateTrace⟩], st.length)
  | r :: rest, buf =>
    let buf' := buf ++ storeGetTraces st r
    if storeIsFail st r then (storeAddTraces st r buf', r)
    else storeFromResultArrayGo st rest buf'

/-- fromResultArray in the heap model (firstFailureOnly = true, the default
of the source). -/
def storeFromResultArray (st : List OutcomeObj) (refs : List Nat) :
    List OutcomeObj × Nat :=
  storeFromResultArrayGo st refs []

/-- A concrete valid information message used in witnesses. -/
def infoMsg (code : String) : Json :=
  Json.obj [("kind", Json.str "information"), ("type", Json.str "information"),
            ("code", Json.str code)]

/-- A concrete valid error message used in witnesses. -/
def errMsg (code : String) : Json :=
  Json.obj [("kind", Json.str "error"), ("type", Json.str "processError"),
            ("code", Json.str code)]

/-!  Helper lemmas. -/

theorem validateTrace_of_valid (c : Json) (h : messageValid c = true) :
    validateTrace c = c := by
  simp [validateTrace, h]

theorem validateError_of_valid (c : Json) (h : messageValid c = true) :
    validateError c = c := by
  simp [validateError, h]

theorem validList_cons_iff (t : Json) (ts : List Json) :
    validList (t :: ts) = true ↔ (messageValid t = true ∧ validList ts = true) := by
  simp [validList, List.all_cons]

theorem validList_append_iff (l l' : List Json) :
    validList (l ++ l') = true ↔ (validList l = true ∧ validList l' = true) := by
  simp [validList, List.all_append]

theorem map_validateTrace_of_valid (ts : List Json) (h : validList ts = true) :
    ts.map validateTrace = ts := by
  induction ts with
  | nil => rfl
  | cons t ts ih =>
    rcases (validList_cons_iff t ts).1 h with ⟨h1, h2⟩
    simp [List.map_cons, validateTrace_of_valid t h1, ih h2]

theorem map_validateError_of_valid (ts : List Json) (h : validList ts = true) :
    ts.map validateError = ts := by
  induction ts with
  | nil => rfl
  | cons t ts ih =>
    rcases (validList_cons_iff t ts).1 h with ⟨h1, h2⟩
    simp [List.map_cons, validateError_of_valid t h1, ih h2]

theorem getTraces_addTraces (r : Result S) (ms : List Json) :
    (r.addTraces ms).getTraces = r.getTraces ++ ms.map validateTrace := by
  cases r <;> rfl

theorem getErrors_addTraces (r : Result S) (ms : List Json) :
    (r.addTraces ms).getErrors = r.getErrors := by
  cases r <;> rfl

theorem getTraces_mapValue (g : A → B) (r : Result A) :
    (Result.mapValue g r).getTraces = r.getTraces := by
  cases r <;> rfl

/-- C1: for every Outcome operation that merges two message lists
(mapSuccess, mapFailure, chainSuccess, chainFailure, chain,
convertFailureToSuccess), the trace list of the produced Outcome is exactly
the intrinsic messages of the new Outcome followed by the carried-over
messages of the original one, each group in its original order; in
particular chainSuccess on a Success with traces [A, B] whose continuation
yields a Success with trace [C] produces the trace list [C, A, B].  The
carried-over lists are assumed schema-valid, which holds of every list an
Outcome actually stores since addTraces and addErrors validate or substitute
every entry. -/
theorem merge_order_contract :
    (∀ (S S2 : Type) (v : S) (ts : List Json) (f : S → S2 × List Json),
      validList ts = true →
      (Result.mapSuccess f (Result.success v ts)).getTraces = (f v).2 ++ ts)
  ∧ (∀ (S : Type) (es ts : List Json) (f : List Json → List Json × List Json),
      validList ts = true →
      (Result.mapFailure f (Result.failure es ts) : Result S).getTraces = (f es).2 ++ ts)
  ∧ (∀ (S S2 : Type) (v : S) (ts : List Json) (f : S → Result S2),
      validList ts = true →
      (Result.chainSuccess f (Result.success v ts)).getTraces = (f v).getTraces ++ ts)
  ∧ (∀ (S S2 : Type) (es ts : List Json) (f : List Json → Result S2),
      validList ts = true →
      (Result.chainFailure f (Result.failure es ts) : Result (S ⊕ S2)).getTraces
        = (f es).getTraces ++ ts)
  ∧ (∀ (S S2 : Type) (r : Result S) (f : Result S → Result S2),
      validList r.getTraces = true →
      (Result.chain f r).getTraces = (f r).getTraces ++ r.getTraces)
  ∧ (∀ (S : Type) (d : S) (es ts : List Json),
      validList es = true → validList ts = true →
      (Result.convertFailureToSuccess d (Result.failure es ts)).getTraces = es ++ ts)
  ∧ (∀ (S : Type) (v v2 : S) (A B C : Json),
      messageValid A = true → messageValid B = true → messageValid C = true →
      (Result.chainSuccess (fun _ => Result.success v2 [C])
        (Result.success v [A, B])).getTraces = [C, A, B]) := by
  refine ⟨?_, ?_, ?_, ?_, ?_, ?_, ?_⟩
  · intro S S2 v ts f h
    show ((Result.success (f v).1 (f v).2).addTraces ts).getTraces = (f v).2 ++ ts
    rw [getTraces_addTraces, map_validateTrace_of_valid ts h]
    rfl
  · intro S es ts f h
    show ((Result.failure (f es).1 (f es).2).addTraces ts).getTraces = (f es).2 ++ ts
    rw [getTraces_addTraces, map_validateTrace_of_valid ts h]
    rfl
  · intro S S2 v ts f h
    show ((f v).addTraces ts).getTraces = (f v).getTraces ++ ts
    rw [getTraces_addTraces, map_validateTrace_of_valid ts h]
  · intro S S2 es ts f h
    show (Result.mapValue Sum.inr ((f es).addTraces ts)).getTraces
      = (f es).getTraces ++ ts
    rw [getTraces_mapValue, getTraces_addTraces, map_validateTrace_of_valid ts h]
  · intro S S2 r f h
    show ((f r).addTraces r.getTraces).getTraces = (f r).getTraces ++ r.getTraces
    rw [getTraces_addTraces, map_validateTrace_of_valid _ h]
  · intro S d es ts he ht
    have hv : validList (es ++ ts) = true := (validList_append_iff es ts).2 ⟨he, ht⟩
    show ((Result.success d ([] : List Json)).addTraces (es ++ ts)).getTraces = es ++ ts
    rw [getTraces_addTraces, map_validateTrace_of_valid _ hv]
    rfl
  · intro S v v2 A B C hA hB hC
    show ((Result.success v2 [C]).addTraces [A, B]).getTraces = [C, A, B]
    rw [getTraces_addTraces]
    simp [Result.getTraces, validateTrace_of_valid A hA, validateTrace_of_valid B hB]

/-- Witness for C1 at concrete messages. -/
theorem merge_order_contract_witness :
    (Result.chainSuccess (fun _ => Result.success (37 : Nat) [infoMsg "C"])
      (Result.success (5 : Nat) [infoMsg "A", infoMsg "B"])).getTraces
      = [infoMsg "C", infoMsg "A", infoMsg "B"] :=
  merge_order_contract.2.2.2.2.2.2 Nat 5 37 (infoMsg "A") (infoMsg "B")
    (infoMsg "C") rfl rfl rfl

/-- C6: appending N candidates through addTraces or addErrors appends
exactly N entries, each the candidate itself when valid and its substituted
internal error otherwise; a single invalid candidate still appends exactly
one entry whose data carries the candidate unchanged. -/
theorem append_count_exact :
    (∀ (S : Type) (r : Result S) (ms : List Json),
      (r.addTraces ms).getTraces = r.getTraces ++ ms.map validateTrace)
  ∧ (∀ (S : Type) (r : Result S) (ms : List Json),
      (r.addTraces ms).getTraces.length = r.getTraces.length + ms.length)
  ∧ (∀ (es ts ms : List Json),
      ((Result.failure es ts : Result Nat).addErrors ms).getErrors
        = es ++ ms.map validateError)
  ∧ (∀ (es ts ms : List Json),
      ((Result.failure es ts : Result Nat).addErrors ms).getErrors.length
        = es.length + ms.length)
  ∧ (∀ (c : Json), messageValid c = false →
      (∀ (S : Type) (r : Result S),
        (r.addTraces [c]).getTraces = r.getTraces ++ [invalidTraceSubstitute c])
      ∧ ((jsonField (invalidTraceSubstitute c) "data").bind
           (fun d => jsonField d "pureMessage")) = some c) := by
  refine ⟨?_, ?_, ?_, ?_, ?_⟩
  · intro S r ms; exact getTraces_addTraces r ms
  · intro S r ms
    rw [getTraces_addTraces]
    simp
  · intro es ts ms; rfl
  · intro es ts ms
    simp [Result.addErrors, Result.getErrors]
  · intro c h
    refine ⟨?_, rfl⟩
    intro S r
    cases r <;> simp [Result.addTraces, Result.getTraces, validateTrace, h]

/-- Witness for C6 at the invalid candidate null. -/
theorem append_count_exact_witness :
    ((Result.success (0 : Nat) ([] : List Json)).addTraces [Json.null]).getTraces
      = [] ++ [invalidTraceSubstitute Json.null] :=
  (append_count_exact.2.2.2.2 Json.null rfl).1 Nat (Result.success 0 [])

/-- C3 counterexample: the substitute appended for an invalid candidate has
field type equal to pureTraceInternalError, not internalError as the claim
states, in both the trace and the error path. -/
theorem invalid_substitute_type_cex :
    jsonField (validateTrace Json.null) "type"
      = some (Json.str "pureTraceInternalError")
  ∧ ¬ jsonField (validateTrace Json.null) "type" = some (Json.str "internalError")
  ∧ jsonField (validateError Json.null) "type"
      = some (Json.str "pureTraceInternalError") := by
  refine ⟨rfl, ?_, rfl⟩
  intro h
  have h' : some (Json.str "pureTraceInternalError")
      = some (Json.str "internalError") := h
  have h2 := Option.some.inj h'
  have h3 : "pureTraceInternalError" = "internalError" := by injection h2
  exact absurd h3 (by decide)

/-- C3 amended: a candidate failing validation is never silently dropped; it
is replaced by a synthetic error of kind error, type pureTraceInternalError,
code invalidTraceMessage (code invalidError in the error-list path), whose
data embeds both the original candidate and the validation diagnostic. -/
theorem invalid_substitute_amended (c : Json) (h : messageValid c = false) :
    validateTrace c = invalidTraceSubstitute c
  ∧ jsonField (invalidTraceSubstitute c) "kind" = some (Json.str "error")
  ∧ jsonField (invalidTraceSubstitute c) "type"
      = some (Json.str "pureTraceInternalError")
  ∧ jsonField (invalidTraceSubstitute c) "code"
      = some (Json.str "invalidTraceMessage")
  ∧ jsonField (invalidTraceSubstitute c) "data"
      = some (Json.obj [("pureMessage", c), ("zodError", zodErrorTree c)])
  ∧ validateError c = invalidErrorSubstitute c
  ∧ jsonField (invalidErrorSubstitute c) "kind" = some (Json.str "error")
  ∧ jsonField (invalidErrorSubstitute c) "type"
      = some (Json.str "pureTraceInternalError")
  ∧ jsonField (invalidErrorSubstitute c) "code" = some (Json.str "invalidError")
  ∧ jsonField (invalidErrorSubstitute c) "data"
      = some (Json.obj [("pureMessage", c), ("zodError", zodErrorTree c)])
  ∧ (∀ (S : Type) (r : Result S),
      (r.addTraces [c]).getTraces = r.getTraces ++ [invalidTraceSubstitute c])
  ∧ (∀ (es ts : List Json),
      ((Result.failure es ts : Result Nat).addErrors [c]).getErrors
        = es ++ [invalidErrorSubstitute c]) := by
  refine ⟨by simp [validateTrace, h], rfl, rfl, rfl, rfl,
    by simp [validateError, h], rfl, rfl, rfl, rfl, ?_, ?_⟩
  · intro S r
    cases r <;> simp [Result.addTraces, Result.getTraces, validateTrace, h]
  · intro es ts
    simp [Result.addErrors, Result.getErrors, validateError, h]

/-- Witness for the amended C3 at the invalid candidate null. -/
theorem invalid_substitute_amended_witness :
    validateTrace Json.null = invalidTraceSubstitute Json.null :=
  (invalid_substitute_amended Json.null rfl).1

/-- C9 counterexample: the public Failure constructor invoked with no error
argument produces a Failure whose error list is empty. -/
theorem failure_empty_errors_cex :
    (Result.mkFailure ([] : List Json) : Result Nat).getErrors.length = 0 := rfl

/-- C9 amended: generateFailure always produces a Failure holding exactly
one error, and the Failure constructor given at least one error produces a
non-empty error list; the constructor invoked with no argument, however,
yields an empty error list. -/
theorem failure_nonempty_amended :
    (∀ (S : Type) (p : PureErrorParameters),
      (generateFailure p : Result S).getErrors.length = 1)
  ∧ (∀ (S : Type) (errs : List Json), errs ≠ [] →
      (Result.mkFailure errs : Result S).getErrors ≠ []) := by
  constructor
  · intro S p; rfl
  · intro S errs h
    cases errs with
    | nil => exact absurd rfl h
    | cons e es => simp [Result.mkFailure, Result.addErrors, Result.getErrors]

/-- Witness for the amended C9 at a one-element error list. -/
theorem failure_nonempty_amended_witness :
    (Result.mkFailure [errMsg "E1"] : Result Nat).getErrors ≠ [] :=
  failure_nonempty_amended.2 Nat [errMsg "E1"] (List.cons_ne_nil _ _)

/-- Concatenation of the trace lists of a list of Results, in order; the
buffer fromResultArray accumulates while scanning. -/
def tracesConcat : List (Result S) → List Json
  | [] => []
  | r :: rest => r.getTraces ++ tracesConcat rest

/-- The success values of a list of Results, in order. -/
def successValues : List (Result S) → List S
  | [] => []
  | Result.success v _ :: rest => v :: successValues rest
  | Result.failure _ _ :: rest => successValues rest

/-- The buffer fromResultArrayAsSuccess accumulates: every trace list in
iteration order, with the errors of every Failure demoted into it right
after the traces of that Failure. -/
def demotedBuffer : List (Result S) → List Json
  | [] => []
  | Result.success _ ts :: rest => ts ++ demotedBuffer rest
  | Result.failure es ts :: rest => ts ++ es ++ demotedBuffer rest

theorem fromResultArrayGo_first_failure (es ts : List Json)
    (rest : List (Result S)) (pre : List (Result S)) (succ : List S)
    (buf : List Json) (hpre : pre.all Result.isSuccess = true) :
    GetResult.fromResultArrayGo true (pre ++ Result.failure es ts :: rest) succ buf none
      = Result.failure es
          (ts ++ (buf ++ tracesConcat pre ++ ts).map validateTrace) := by
  induction pre generalizing succ buf with
  | nil =>
    simp [GetResult.fromResultArrayGo, Result.getTraces, tracesConcat]
  | cons r pre ih =>
    cases r with
    | failure e t => simp [List.all_cons, Result.isSuccess] at hpre
    | success v t =>
      have hpre' : pre.all Result.isSuccess = true := by
        rw [List.all_cons, Bool.and_eq_true] at hpre
        exact hpre.2
      show GetResult.fromResultArrayGo true (pre ++ Result.failure es ts :: rest)
        (succ ++ [v]) (buf ++ t) none = _
      rw [ih (succ ++ [v]) (buf ++ t) hpre']
      simp [tracesConcat, Result.getTraces, List.append_assoc]

/-- C5: with firstFailureOnly, fromResultArray scans in order buffering the
traces of every scanned outcome (including those of the failing one), and at
the first Failure returns that very Failure with the whole buffer appended
to its trace list and its error list untouched, never looking at any later
outcome; on the sample array with two Failures the error list is exactly the
errors of the first. -/
theorem fromResultArray_fail_fast :
    (∀ (S : Type) (pre : List (Result S)) (es ts : List Json)
        (rest : List (Result S)),
      pre.all Result.isSuccess = true →
      GetResult.fromResultArray (pre ++ Result.failure es ts :: rest) true
        = Result.failure es (ts ++ (tracesConcat pre ++ ts).map validateTrace))
  ∧ (∀ (S : Type) (pre : List (Result S)) (es ts : List Json)
        (rest : List (Result S)),
      pre.all Result.isSuccess = true →
      (GetResult.fromResultArray (pre ++ Result.failure es ts :: rest) true).getErrors
        = es)
  ∧ (∀ (E1 E2 : Json),
      (GetResult.fromResultArray
        [Result.success (1 : Nat) [], Result.failure [E1] [],
         Result.success 2 [], Result.failure [E2] []] true).getErrors = [E1]) := by
  refine ⟨?_, ?_, ?_⟩
  · intro S pre es ts rest hpre
    have h := fromResultArrayGo_first_failure es ts rest pre [] [] hpre
    simpa [GetResult.fromResultArray] using h
  · intro S pre es ts rest hpre
    have h := fromResultArrayGo_first_failure es ts rest pre [] [] hpre
    simp [GetResult.fromResultArray]
    rw [h]
    rfl
  · intro E1 E2
    rfl

/-- Witness for C5 at a concrete array with two Failures. -/
theorem fromResultArray_fail_fast_witness :
    (GetResult.fromResultArray
      [Result.success (1 : Nat) [infoMsg "T"], Result.failure [errMsg "E1"] [],
       Result.success 2 [], Result.failure [errMsg "E2"] []] true).getErrors
      = [errMsg "E1"] :=
  fromResultArray_fail_fast.2.1 Nat [Result.success 1 [infoMsg "T"]]
    [errMsg "E1"] [] [Result.success 2 [], Result.failure [errMsg "E2"] []] rfl

theorem fromResultArrayAsSuccessGo_spec (rs : List (Result S)) (succ : List S)
    (buf : List Json) :
    GetResult.fromResultArrayAsSuccessGo rs succ buf
      = Result.success (succ ++ successValues rs)
          ((buf ++ demotedBuffer rs).map validateTrace) := by
  induction rs generalizing succ buf with
  | nil => simp [GetResult.fromResultArrayAsSuccessGo, Result.addTraces,
      successValues, demotedBuffer]
  | cons r rest ih =>
    cases r with
    | success v t =>
      show GetResult.fromResultArrayAsSuccessGo rest (succ ++ [v]) (buf ++ t) = _
      rw [ih (succ ++ [v]) (buf ++ t)]
      simp [successValues, demotedBuffer, Result.getTraces, List.append_assoc]
    | failure e t =>
      show GetResult.fromResultArrayAsSuccessGo rest succ ((buf ++ t) ++ e) = _
      rw [ih succ ((buf ++ t) ++ e)]
      simp [successValues, demotedBuffer, Result.getTraces, List.append_assoc]

/-- C8: fromResultArrayAsSuccess never returns a Failure; it returns a
Success whose value is the list of all success values in input order and
whose trace list is, in iteration order, the traces of every input outcome
with the errors of every Failure demoted into it; on the sample array the
value is [1, 2] and the trace list contains both errors. -/
theorem fromResultArrayAsSuccess_contract :
    (∀ (S : Type) (rs : List (Result S)),
      (GetResult.fromResultArrayAsSuccess rs).isSuccess = true)
  ∧ (∀ (S : Type) (rs : List (Result S)),
      validList (demotedBuffer rs) = true →
      GetResult.fromResultArrayAsSuccess rs
        = Result.success (successValues rs) (demotedBuffer rs))
  ∧ (∀ (E1 E2 : Json), messageValid E1 = true → messageValid E2 = true →
      GetResult.fromResultArrayAsSuccess
        [Result.success (1 : Nat) [], Result.failure [E1] [],
         Result.success 2 [], Result.failure [E2] []]
        = Result.success [1, 2] [E1, E2]
      ∧ E1 ∈ (GetResult.fromResultArrayAsSuccess
          [Result.success (1 : Nat) [], Result.failure [E1] [],
           Result.success 2 [], Result.failure [E2] []]).getTraces
      ∧ E2 ∈ (GetResult.fromResultArrayAsSuccess
          [Result.success (1 : Nat) [], Result.failure [E1] [],
           Result.success 2 [], Result.failure [E2] []]).getTraces) := by
  refine ⟨?_, ?_, ?_⟩
  · intro S rs
    show (GetResult.fromResultArrayAsSuccessGo rs [] []).isSuccess = true
    rw [fromResultArrayAsSuccessGo_spec]
    rfl
  · intro S rs h
    show GetResult.fromResultArrayAsSuccessGo rs [] [] = _
    rw [fromResultArrayAsSuccessGo_spec]
    simp [map_validateTrace_of_valid _ h]
  · intro E1 E2 h1 h2
    have key : GetResult.fromResultArrayAsSuccess
        [Result.success (1 : Nat) [], Result.failure [E1] [],
         Result.success 2 [], Result.failure [E2] []]
        = Result.success [1, 2] [E1, E2] := by
      show GetResult.fromResultArrayAsSuccessGo _ [] [] = _
      rw [fromResultArrayAsSuccessGo_spec]
      simp [successValues, demotedBuffer, validateTrace_of_valid E1 h1,
        validateTrace_of_valid E2 h2]
    refine ⟨key, ?_, ?_⟩ <;> rw [key] <;> simp [Result.getTraces]

/-- Witness for C8 at concrete errors. -/
theorem fromResultArrayAsSuccess_contract_witness :
    GetResult.fromResultArrayAsSuccess
      [Result.success (1 : Nat) [], Result.failure [errMsg "E1"] [],
       Result.success 2 [], Result.failure [errMsg "E2"] []]
      = Result.success [1, 2] [errMsg "E1", errMsg "E2"] :=
  (fromResultArrayAsSuccess_contract.2.2 (errMsg "E1") (errMsg "E2") rfl rfl).1

/-- An AsyncOutcome whose computation increments an external counter (the
world state) and succeeds with the counter value. -/
def counterAsync : ResultAsync Nat Nat :=
  ⟨fun n => (n + 1, Except.ok (Result.success n []))⟩

/-- The state left after resolving the same AsyncOutcome twice in a row. -/
def resolveTwiceState (a : ResultAsync σ S) (s : σ) : σ :=
  (a.resolve ((a.resolve s).1)).1

theorem resolve_fst (a : ResultAsync σ S) (s : σ) :
    (a.resolve s).1 = (a.compute s).1 := by
  unfold ResultAsync.resolve
  rcases hc : a.compute s with ⟨s', r⟩
  cases r with
  | ok v => rfl
  | error e => rcases he : jsStringify e with _ | msg <;> simp [he]

/-- C2: an AsyncOutcome holds no cached result, so resolve re-executes the
captured computation each time: the counter computation resolved twice
increments the counter twice, and the same holds after wrapping it in each
combinator (tap, tapSuccess, tapFailure, tapBoth, mapSuccess, mapFailure,
mapBoth, chain, chainSuccess, chainFailure, chainBoth), every one of whose
fresh thunks resolves the upstream AsyncOutcome again; generically, the
state reached by resolving a mapSuccess wrap is exactly the state reached by
resolving the upstream computation. -/
theorem async_no_memoization :
    (∀ n : Nat, (counterAsync.resolve n).1 = n + 1)
  ∧ (∀ n : Nat, resolveTwiceState counterAsync n = n + 2)
  ∧ (∀ (n : Nat) (f : Result Nat → Unit),
      resolveTwiceState (counterAsync.tap f) n = n + 2)
  ∧ (∀ (n : Nat) (f : Nat × List Json → Unit),
      resolveTwiceState (counterAsync.tapSuccess f) n = n + 2)
  ∧ (∀ (n : Nat) (f : List Json × List Json → Unit),
      resolveTwiceState (counterAsync.tapFailure f) n = n + 2)
  ∧ (∀ (n : Nat) (f : Nat × List Json → Unit) (g : List Json × List Json → Unit),
      resolveTwiceState (counterAsync.tapBoth f g) n = n + 2)
  ∧ (∀ (n : Nat) (f : Nat → Nat × List Json),
      resolveTwiceState (counterAsync.mapSuccess f) n = n + 2)
  ∧ (∀ (n : Nat) (f : List Json → List Json × List Json),
      resolveTwiceState (counterAsync.mapFailure f) n = n + 2)
  ∧ (∀ (n : Nat) (f : Nat → Nat × List Json) (g : List Json → List Json × List Json),
      resolveTwiceState (counterAsync.mapBoth f g) n = n + 2)
  ∧ (∀ n : Nat,
      resolveTwiceState (counterAsync.chain
        (fun r s => (s, Except.ok r))) n = n + 2)
  ∧ (∀ n : Nat,
      resolveTwiceState (counterAsync.chainSuccess
        (fun v s => (s, Except.ok (Result.success (v * 2) [])))) n = n + 2)
  ∧ (∀ n : Nat,
      resolveTwiceState (counterAsync.chainFailure
        (fun es s => (s, Except.ok (Result.failure es [] : Result Nat)))) n = n + 2)
  ∧ (∀ n : Nat,
      resolveTwiceState (counterAsync.chainBoth
        (fun v s => (s, Except.ok (Result.success (v * 2) [])))
        (fun es s => (s, Except.ok (Result.failure es [] : Result Nat)))) n = n + 2)
  ∧ (∀ (σ S S2 : Type) (a : ResultAsync σ S) (f : S → S2 × List Json) (s : σ),
      ((a.mapSuccess f).resolve s).1 = (a.resolve s).1) := by
  refine ⟨fun n => rfl, fun n => rfl, fun n f => rfl, fun n f => rfl,
    fun n f => rfl, fun n f g => rfl, fun n f => rfl, fun n f => rfl,
    fun n f g => rfl, fun n => rfl, fun n => rfl, fun n => rfl, fun n => rfl, ?_⟩
  intro σ S S2 a f s
  rw [resolve_fst]
  show (match a.resolve s with
    | (s', Except.ok r) => (s', Except.ok (Result.mapSuccess f r))
    | (s', Except.error e) => (s', Except.error e)).1 = (a.resolve s).1
  rcases a.resolve s with ⟨s', r⟩
  cases r <;> rfl

/-- Boolean fulfillment flag of a promise outcome in the model. -/
def exceptIsOk : Except ε α → Bool
  | Except.ok _ => true
  | Except.error _ => false

/-- An AsyncOutcome whose computation throws a BigInt, a value JSON.stringify
cannot serialize. -/
def bigintThrower : ResultAsync Unit Nat :=
  ⟨fun s => (s, Except.error (JsValue.bigintVal 1))⟩

/-- A second BigInt-throwing AsyncOutcome, observed through then. -/
def bigintThrowerThen : ResultAsync Unit Nat :=
  ⟨fun s => (s, Except.error (JsValue.bigintVal 2))⟩

/-- C7 counterexample: when the captured computation throws a BigInt,
JSON.stringify inside the catch block itself throws, so resolve does not
return any Failure at all: the returned promise rejects with the
stringification TypeError. -/
theorem resolve_unstringifiable_cex :
    (bigintThrower.resolve ()).2 = Except.error stringifyTypeError
  ∧ exceptIsOk (bigintThrower.resolve ()).2 = false :=
  ⟨rfl, rfl⟩

/-- C7 amended: for every AsyncOutcome whose captured computation throws or
rejects with a reason whose JSON stringification succeeds, resolve returns a
Failure of type technicalIssue and code uncaughtException whose data
carries the stringified reason; a reason JSON.stringify cannot serialize
instead makes the returned promise reject. -/
theorem resolve_normalization_amended (σ S : Type) (g : σ → σ) (e : JsValue)
    (msg : String) (s : σ) (h : jsStringify e = some msg) :
    (ResultAsync.resolve (⟨fun s0 => (g s0, Except.error e)⟩ : ResultAsync σ S) s)
      = (g s, Except.ok (generateFailure ⟨"technicalIssue", "uncaughtException",
          some (Json.obj [("message", Json.str msg)]), none, none⟩)) := by
  simp [ResultAsync.resolve, h]

/-- Witness for the amended C7 at a concrete thrown string. -/
theorem resolve_normalization_amended_witness :
    (ResultAsync.resolve
      (⟨fun s0 => (s0, Except.error (JsValue.json (Json.str "boom")))⟩
        : ResultAsync Unit Nat) ())
      = ((), Except.ok (generateFailure ⟨"technicalIssue", "uncaughtException",
          some (Json.obj [("message", Json.str "\"boom\"")]), none, none⟩)) :=
  resolve_normalization_amended Unit Nat (fun s0 => s0)
    (JsValue.json (Json.str "boom")) "\"boom\"" () rfl

/-- C10 counterexample: the promise observed through then rejects when the
computation throws a BigInt, whose stringification inside the catch block
itself throws. -/
theorem then_never_rejects_cex :
    exceptIsOk (bigintThrowerThen.thenRun ()).2 = false
  ∧ (bigintThrowerThen.thenRun ()).2 = Except.error stringifyTypeError :=
  ⟨rfl, rfl⟩

/-- C10 amended: the promise returned by resolve (and observed through then)
is fulfilled with a Result for every computation outcome — a produced
Outcome passes through unchanged and a thrown or rejecting reason is
normalized — provided any thrown reason is JSON-stringifiable; a reason
whose stringification itself throws makes the promise reject. -/
theorem then_never_rejects_amended (σ S : Type) (a : ResultAsync σ S) (s : σ)
    (h : match (a.compute s).2 with
         | Except.error e => (jsStringify e).isSome = true
         | Except.ok _ => True) :
    exceptIsOk (a.resolve s).2 = true
  ∧ exceptIsOk (a.thenRun s).2 = true
  ∧ (∀ r : Result S, (a.compute s).2 = Except.ok r → (a.resolve s).2 = Except.ok r) := by
  have key : exceptIsOk (a.resolve s).2 = true := by
    unfold ResultAsync.resolve
    rcases hc : a.compute s with ⟨s', r⟩
    cases r with
    | ok v => simp [exceptIsOk]
    | error e =>
      rw [hc] at h
      rcases Option.isSome_iff_exists.mp h with ⟨msg, hm⟩
      simp [hm, exceptIsOk]
  refine ⟨key, key, ?_⟩
  intro r hr
  unfold ResultAsync.resolve
  rcases hc : a.compute s with ⟨s', r'⟩
  rw [hc] at hr
  cases r' with
  | ok v => simpa using hr
  | error e => simp at hr

/-- Witness for the amended C10 at a concrete throwing computation. -/
theorem then_never_rejects_amended_witness :
    exceptIsOk ((⟨fun s0 => (s0, Except.error (JsValue.json Json.null))⟩
      : ResultAsync Unit Nat).resolve ()).2 = true :=
  (then_never_rejects_amended Unit Nat
    (⟨fun s0 => (s0, Except.error (JsValue.json Json.null))⟩ : ResultAsync Unit Nat)
    () rfl).1

/-- Concatenation of the trace lists of the designated outcomes, in scan
order. -/
def storeTracesConcat (st : List OutcomeObj) : List Nat → List Json
  | [] => []
  | r :: rest => storeGetTraces st r ++ storeTracesConcat st rest

theorem get?_append_length (st : List OutcomeObj) (o : OutcomeObj) :
    (st ++ [o]).get? st.length = some o := by
  induction st with
  | nil => rfl
  | cons a st ih => exact ih

theorem set_append_length (st : List OutcomeObj) (o x : OutcomeObj) :
    (st ++ [o]).set st.length x = st ++ [x] := by
  induction st with
  | nil => rfl
  | cons a st ih =>
    show a :: (st ++ [o]).set st.length x = a :: (st ++ [x])
    rw [ih]

theorem get?_append_sing_lt (st : List OutcomeObj) (x : OutcomeObj) (i : Nat)
    (h : i < st.length) : (st ++ [x]).get? i = st.get? i := by
  induction st generalizing i with
  | nil => exact absurd h (Nat.not_lt_zero i)
  | cons a st ih =>
    cases i with
    | zero => rfl
    | succ i => exact ih i (Nat.lt_of_succ_lt_succ h)

theorem storeAddTraces_fresh (st : List OutcomeObj) (o : OutcomeObj)
    (ms : List Json) (i : Nat) (h : i < st.length) :
    storeGetTraces (storeAddTraces (st ++ [o]) st.length ms) i
      = storeGetTraces st i := by
  unfold storeAddTraces
  rw [get?_append_length]
  show storeGetTraces ((st ++ [o]).set st.length
    ⟨o.isFail, o.errors, o.traces ++ ms.map validateTrace⟩) i = storeGetTraces st i
  rw [set_append_length]
  unfold storeGetTraces storeGet
  rw [get?_append_sing_lt st _ i h]

theorem storeFromResultArrayGo_success (st : List OutcomeObj) (refs : List Nat)
    (buf : List Json) (h : refs.all (fun x => !(storeIsFail st x)) = true) :
    storeFromResultArrayGo st refs buf
      = (st ++ [⟨false, [], (buf ++ storeTracesConcat st refs).map validateTrace⟩],
         st.length) := by
  induction refs generalizing buf with
  | nil => simp [storeFromResultArrayGo, storeTracesConcat]
  | cons r rest ih =>
    rw [List.all_cons, Bool.and_eq_true] at h
    have hr : storeIsFail st r = false := by simpa using h.1
    show (if storeIsFail st r
      then (storeAddTraces st r (buf ++ storeGetTraces st r), r)
      else storeFromResultArrayGo st rest (buf ++ storeGetTraces st r)) = _
    rw [hr]
    show storeFromResultArrayGo st rest (buf ++ storeGetTraces st r) = _
    rw [ih (buf ++ storeGetTraces st r) h.2]
    simp [storeTracesConcat, List.append_assoc]

theorem storeFromResultArrayGo_first_fail (st : List OutcomeObj)
    (pre : List Nat) (r : Nat) (rest : List Nat) (buf : List Json)
    (hpre : pre.all (fun x => !(storeIsFail st x)) = true)
    (hr : storeIsFail st r = true) :
    (storeFromResultArrayGo st (pre ++ r :: rest) buf).2 = r := by
  induction pre generalizing buf with
  | nil =>
    show ((if storeIsFail st r
      then (storeAddTraces st r (buf ++ storeGetTraces st r), r)
      else storeFromResultArrayGo st rest (buf ++ storeGetTraces st r)) :
        List OutcomeObj × Nat).2 = r
    rw [hr]
    simp
  | cons a pre ih =>
    rw [List.all_cons, Bool.and_eq_true] at hpre
    have ha : storeIsFail st a = false := by simpa using hpre.1
    show ((if storeIsFail st a
      then (storeAddTraces st a (buf ++ storeGetTraces st a), a)
      else storeFromResultArrayGo st (pre ++ r :: rest)
        (buf ++ storeGetTraces st a)) : List OutcomeObj × Nat).2 = r
    rw [ha]
    exact ih (buf ++ storeGetTraces st a) hpre.2

/-- The concrete store of the aliasing counterexample: one Success object
and one Failure object holding one error. -/
def cexStore : List OutcomeObj :=
  [⟨false, [], []⟩, ⟨true, [errMsg "E1"], []⟩]

/-- C4 counterexample: fromResultArray over the references of a Success and
a Failure returns reference 1, the very input Failure object; appending a
message to the trace list of the aggregation result therefore changes the
trace list of that input Outcome, which the claim asserts can never
happen. -/
theorem fromResultArray_alias_cex :
    (storeFromResultArray cexStore [0, 1]).2 = 1
  ∧ storeGetTraces (storeFromResultArray cexStore [0, 1]).1 1 = []
  ∧ storeGetTraces
      (storeAddTraces (storeFromResultArray cexStore [0, 1]).1
        (storeFromResultArray cexStore [0, 1]).2 [infoMsg "M"]) 1
      = [infoMsg "M"] :=
  ⟨rfl, rfl, rfl⟩

/-- C4 amended: on an all-success array fromResultArray allocates a fresh
Outcome (its reference lies outside the store of the inputs) and mutating
the trace list of a freshly appended object never affects any previously
stored Outcome; but when the array contains a Failure, fromResultArray
returns the reference of the first failing input itself, mutated in place,
so mutating the trace list of the result mutates that input Outcome. -/
theorem ownership_amended :
    (∀ (st : List OutcomeObj) (refs : List Nat),
      refs.all (fun x => !(storeIsFail st x)) = true →
      (storeFromResultArray st refs).2 = st.length
      ∧ (storeFromResultArray st refs).1
          = st ++ [⟨false, [], (storeTracesConcat st refs).map validateTrace⟩])
  ∧ (∀ (st : List OutcomeObj) (o : OutcomeObj) (ms : List Json) (i : Nat),
      i < st.length →
      storeGetTraces (storeAddTraces (st ++ [o]) st.length ms) i
        = storeGetTraces st i)
  ∧ (∀ (st : List OutcomeObj) (pre : List Nat) (r : Nat) (rest : List Nat),
      pre.all (fun x => !(storeIsFail st x)) = true →
      storeIsFail st r = true →
      (storeFromResultArray st (pre ++ r :: rest)).2 = r) := by
  refine ⟨?_, ?_, ?_⟩
  · intro st refs h
    have key := storeFromResultArrayGo_success st refs [] h
    exact ⟨by rw [storeFromResultArray, key],
      by rw [storeFromResultArray, key]; simp⟩
  · intro st o ms i h
    exact storeAddTraces_fresh st o ms i h
  · intro st pre r rest hpre hr
    exact storeFromResultArrayGo_first_fail st pre r rest [] hpre hr

/-- A one-object all-success store used by the C4 witness. -/
def successStore : List OutcomeObj :=
  [⟨false, [], [infoMsg "T"]⟩]

/-- Witness for the amended C4 at a concrete all-success store. -/
theorem ownership_amended_witness :
    (storeFromResultArray successStore [0]).2 = 1 :=
  (ownership_amended.1 successStore [0] rfl).1

end PureTrace
